import Mathlib

/-!
Verification development for `tutorial_poc.py`, the HTTP API test client of
the manga-image-translator repository.

The script is shallowly embedded: every client operation
(`test_health`, `translate_json`, `translate_image`, `translate_json_stream`,
`queue_size`, `results_list`) becomes a pure Lean function from the client
configuration, the local filesystem (a predicate on paths) and the outcome of
the single HTTP call the operation would perform (a transport error message or
a `Response`) to the response envelope the Python function returns, paired with
the list of outbound requests it issued.  The test runner `run_tests` becomes a
pure function from an environment (filesystem, availability of PIL, one network
outcome per endpoint) to the ordered result set and the list of client
operations invoked.  Printing and `time.sleep` are I/O only and do not affect
any returned value, so they are not modelled.

JSON is modelled by the inductive `Json` (objects and arrays as ordered lists,
matching Python dict insertion order).  `json.dumps` is embedded by `dumps`
(default separators `", "` and `": "`, `ensure_ascii=True` escaping including
surrogate pairs, `allow_nan=True` constants `NaN`/`Infinity`/`-Infinity`),
and JSON decoding by the executable parser `parseJson` (whitespace skipping,
strings with all standard escapes and surrogate-pair recombination, integers,
float tokens and the three float constants, nested arrays and objects).
Floats are carried by `PyFloat`: the specials plus finite floats represented
by their `repr` text, mirroring how CPython's encoder splices
`float.__repr__` output verbatim and how the decoder hands the matched
number text to `float`; Python's `==` on decoded values, under which
`nan != nan`, is modelled by `jsonEqPy`.  One deliberate abstraction
remains: a lone surrogate escape is rejected rather than decoded, since a
Lean `Char` cannot hold a lone surrogate; such an escape is not producible
by `dumps` nor touched by any response body used in the theorems below.
-/

/-- A Python float as it passes through the `json` module: `nan`, the two
infinities, or a finite value.  A finite float is represented by its `repr`
text: CPython's json encoder serializes a finite float by splicing the
output of `float.__repr__` verbatim into the document (`FLOAT_REPR`), and
`repr` is injective on floats with `float(repr(x)) == x`, so the canonical
repr texts are in bijection with the finite floats. -/
inductive PyFloat where
  | nan
  | inf
  | ninf
  | finite (s : String)

/-- JSON values as exchanged by the client: Python dicts become ordered
association lists, matching dict insertion order. -/
inductive Json where
  | null
  | bool (b : Bool)
  | num (n : Int)
  | flt (f : PyFloat)
  | str (s : String)
  | arr (xs : List Json)
  | obj (fields : List (String × Json))

/-- The double-quote character. -/
def qmark : Char := '\"'

/-- The backslash character. -/
def bslash : Char := '\\'

/-- The opening-brace character. -/
def lbrace : Char := '\x7b'

/-- The closing-brace character. -/
def rbrace : Char := '\x7d'

/-- The opening-bracket character. -/
def lbrack : Char := '['

/-- The closing-bracket character. -/
def rbrack : Char := ']'

/-- Newline. -/
def nlChar : Char := '\x0a'

/-- Horizontal tab. -/
def tabChar : Char := '\x09'

/-- Carriage return. -/
def crChar : Char := '\x0d'

/-- Backspace. -/
def bsChar : Char := '\x08'

/-- Form feed. -/
def ffChar : Char := '\x0c'

/-- Decimal digit test on a character. -/
def isDigitC (c : Char) : Bool := 48 ≤ c.toNat && c.toNat ≤ 57

/-- JSON whitespace (space, tab, newline, carriage return). -/
def isWsC (c : Char) : Bool := c = ' ' || c = tabChar || c = nlChar || c = crChar

/-- Drop leading JSON whitespace. -/
def skipWs : List Char → List Char
  | [] => []
  | c :: r => if isWsC c then skipWs r else c :: r

/-- Lower-case hexadecimal digit for a value below 16 (as used by Python's
`json.dumps` in `\uXXXX` escapes). -/
def hexDigitChar (d : Nat) : Char :=
  if d < 10 then Char.ofNat (48 + d) else Char.ofNat (87 + d)

/-- Numeric value of a hexadecimal digit character, upper or lower case. -/
def hexDigitVal (c : Char) : Option Nat :=
  let n := c.toNat
  if 48 ≤ n && n ≤ 57 then some (n - 48)
  else if 97 ≤ n && n ≤ 102 then some (n - 87)
  else if 65 ≤ n && n ≤ 70 then some (n - 55)
  else none

/-- Four-digit lower-case hexadecimal rendering of a value below 0x10000. -/
def writeHex4 (n : Nat) : List Char :=
  [hexDigitChar (n / 4096 % 16), hexDigitChar (n / 256 % 16),
   hexDigitChar (n / 16 % 16), hexDigitChar (n % 16)]

/-- Read exactly four hexadecimal digits. -/
def readHex4 : List Char → Option (Nat × List Char)
  | a :: b :: c :: d :: r =>
    match hexDigitVal a, hexDigitVal b, hexDigitVal c, hexDigitVal d with
    | some x, some y, some z, some w => some (4096 * x + 256 * y + 16 * z + w, r)
    | _, _, _, _ => none
  | _ => none

/-- Decimal digits of a natural number, most significant first, prepended to
an accumulator. -/
def natDigitsAux (n : Nat) (acc : List Char) : List Char :=
  if h : n < 10 then Char.ofNat (48 + n) :: acc
  else natDigitsAux (n / 10) (Char.ofNat (48 + n % 10) :: acc)
termination_by n
decreasing_by omega

/-- Decimal digits of a natural number, most significant first. -/
def natDigits (n : Nat) : List Char := natDigitsAux n []

/-- Decimal rendering of an integer, as Python prints an `int` inside
`json.dumps` output. -/
def intChars (i : Int) : List Char :=
  if i < 0 then '-' :: natDigits (-i).toNat else natDigits i.toNat

/-- Escape of one character in a JSON string literal, exactly as Python's
`json.dumps` with its default `ensure_ascii=True`: the two-character shortcuts
for quote, backslash and the common control characters, `\uXXXX` for the
remaining control characters and for all non-ASCII characters, with surrogate
pairs for characters beyond the basic multilingual plane. -/
def encodeChar (c : Char) : List Char :=
  if c = qmark then [bslash, qmark]
  else if c = bslash then [bslash, bslash]
  else if c = bsChar then [bslash, 'b']
  else if c = tabChar then [bslash, 't']
  else if c = nlChar then [bslash, 'n']
  else if c = ffChar then [bslash, 'f']
  else if c = crChar then [bslash, 'r']
  else if c.toNat < 32 then bslash :: 'u' :: writeHex4 c.toNat
  else if c.toNat ≤ 126 then [c]
  else if c.toNat < 65536 then bslash :: 'u' :: writeHex4 c.toNat
  else
    bslash :: 'u' :: writeHex4 (55296 + (c.toNat - 65536) / 1024) ++
      (bslash :: 'u' :: writeHex4 (56320 + (c.toNat - 65536) % 1024))

/-- Escape a whole character sequence for a JSON string literal. -/
def encodeChars : List Char → List Char
  | [] => []
  | c :: cs => encodeChar c ++ encodeChars cs

/-- A JSON string literal: quote, escaped characters, quote. -/
def dumpStr (s : String) : List Char := qmark :: encodeChars s.data ++ [qmark]

mutual

/-- Characters of `json.dumps` for a JSON value, with Python's default
separators `", "` and `": "`. -/
def dumpValue : Json → List Char
  | .null => 'n' :: 'u' :: 'l' :: 'l' :: []
  | .bool true => 't' :: 'r' :: 'u' :: 'e' :: []
  | .bool false => 'f' :: 'a' :: 'l' :: 's' :: 'e' :: []
  | .num i => intChars i
  | .flt .nan => 'N' :: 'a' :: 'N' :: []
  | .flt .inf => 'I' :: 'n' :: 'f' :: 'i' :: 'n' :: 'i' :: 't' :: 'y' :: []
  | .flt .ninf => '-' :: 'I' :: 'n' :: 'f' :: 'i' :: 'n' :: 'i' :: 't' :: 'y' :: []
  | .flt (.finite s) => s.data
  | .str s => dumpStr s
  | .arr xs => lbrack :: dumpElems xs ++ [rbrack]
  | .obj fs => lbrace :: dumpMembers fs ++ [rbrace]

/-- Array elements, separated by `", "`. -/
def dumpElems : List Json → List Char
  | [] => []
  | [x] => dumpValue x
  | x :: y :: t => dumpValue x ++ ',' :: ' ' :: dumpElems (y :: t)

/-- Object members `"key": value`, separated by `", "`. -/
def dumpMembers : List (String × Json) → List Char
  | [] => []
  | [(k, v)] => dumpStr k ++ ':' :: ' ' :: dumpValue v
  | (k, v) :: y :: t => dumpStr k ++ ':' :: ' ' :: dumpValue v ++ ',' :: ' ' :: dumpMembers (y :: t)

end

/-- `json.dumps` of a JSON value as a string. -/
def dumps (j : Json) : String := String.mk (dumpValue j)

/-- Reading four hexadecimal digits consumes exactly four characters. -/
theorem readHex4_length {l : List Char} {n : Nat} {r : List Char}
    (h : readHex4 l = some (n, r)) : r.length + 4 = l.length := by
  match l with
  | a :: b :: c :: d :: t =>
    unfold readHex4 at h
    cases ha : hexDigitVal a <;> cases hb : hexDigitVal b <;> cases hc : hexDigitVal c <;>
      cases hd : hexDigitVal d <;> simp [ha, hb, hc, hd] at h <;> simp [h.2]
  | [] | [_] | [_, _] | [_, _, _] => simp [readHex4] at h

/-- Body of a JSON string literal after its opening quote, as decoded by
Python's `json` scanner in its default strict mode: literal characters (raw
control characters rejected), the standard two-character escapes, and `\uXXXX`
escapes with surrogate-pair recombination.  Returns the decoded characters and
the input remaining after the closing quote.  `fuel` only bounds the
recursion: every step consumes at least one input character and exactly one
unit of fuel, so the wrapper `parseStringBody` below, which supplies more fuel
than the input length, never runs out. -/
def parseStringBodyF : Nat → List Char → Option (List Char × List Char)
  | 0, _ => none
  | fuel + 1, l =>
    match l with
    | [] => none
    | c :: r =>
      if c = qmark then some ([], r)
      else if c = bslash then
        match r with
        | [] => none
        | e :: r2 =>
          if e = qmark then (parseStringBodyF fuel r2).map (fun p => (qmark :: p.1, p.2))
          else if e = bslash then (parseStringBodyF fuel r2).map (fun p => (bslash :: p.1, p.2))
          else if e = '/' then (parseStringBodyF fuel r2).map (fun p => ('/' :: p.1, p.2))
          else if e = 'b' then (parseStringBodyF fuel r2).map (fun p => (bsChar :: p.1, p.2))
          else if e = 'f' then (parseStringBodyF fuel r2).map (fun p => (ffChar :: p.1, p.2))
          else if e = 'n' then (parseStringBodyF fuel r2).map (fun p => (nlChar :: p.1, p.2))
          else if e = 'r' then (parseStringBodyF fuel r2).map (fun p => (crChar :: p.1, p.2))
          else if e = 't' then (parseStringBodyF fuel r2).map (fun p => (tabChar :: p.1, p.2))
          else if e = 'u' then
            match readHex4 r2 with
            | none => none
            | some (n1, r3) =>
              if 55296 ≤ n1 && n1 ≤ 56319 then
                match r3 with
                | c2 :: c3 :: r4 =>
                  if c2 = bslash && c3 = 'u' then
                    match readHex4 r4 with
                    | none => none
                    | some (n2, r5) =>
                      if 56320 ≤ n2 && n2 ≤ 57343 then
                        (parseStringBodyF fuel r5).map
                          (fun p =>
                            (Char.ofNat (65536 + 1024 * (n1 - 55296) + (n2 - 56320)) :: p.1, p.2))
                      else none
                  else none
                | _ => none
              else if 56320 ≤ n1 && n1 ≤ 57343 then none
              else (parseStringBodyF fuel r3).map (fun p => (Char.ofNat n1 :: p.1, p.2))
          else none
      else if c.toNat < 32 then none
      else (parseStringBodyF fuel r).map (fun p => (c :: p.1, p.2))

/-- JSON string-literal body decoding with always-sufficient fuel. -/
def parseStringBody (l : List Char) : Option (List Char × List Char) :=
  parseStringBodyF (l.length + 1) l

/-- Greedily consume decimal digits, extending an accumulated value. -/
def parseDigits : List Char → Nat → Nat × List Char
  | [], a => (a, [])
  | c :: r, a => if isDigitC c then parseDigits r (10 * a + (c.toNat - 48)) else (a, c :: r)

/-- Parse a JSON natural-number literal: at least one digit, and no leading
zero (as in the JSON grammar Python's scanner follows). -/
def parseNat : List Char → Option (Nat × List Char)
  | [] => none
  | c :: r =>
    if c = '0' then
      match r with
      | c2 :: _ => if isDigitC c2 then none else some (0, r)
      | [] => some (0, [])
    else if isDigitC c then some (parseDigits r (c.toNat - 48))
    else none

/-- Drop a run of decimal digits. -/
def skipDigits : List Char → List Char
  | [] => []
  | c :: r => if isDigitC c then skipDigits r else c :: r

/-- The optional fraction of a JSON number, `.` followed by at least one
digit, as in the scanner's number pattern; returns whether a fraction was
consumed and the remaining input. -/
def parseFrac : List Char → Bool × List Char
  | [] => (false, [])
  | c :: r =>
    if c = '.' then
      match r with
      | [] => (false, c :: r)
      | c2 :: r2 => if isDigitC c2 then (true, skipDigits r2) else (false, c :: r)
    else (false, c :: r)

/-- The optional exponent of a JSON number, `e`/`E`, an optional sign and at
least one digit; returns whether an exponent was consumed and the remaining
input. -/
def parseExp : List Char → Bool × List Char
  | [] => (false, [])
  | c :: r =>
    if c = 'e' ∨ c = 'E' then
      match r with
      | [] => (false, c :: r)
      | c2 :: r2 =>
        if c2 = '+' ∨ c2 = '-' then
          match r2 with
          | [] => (false, c :: r)
          | c3 :: r3 => if isDigitC c3 then (true, skipDigits r3) else (false, c :: r)
        else if isDigitC c2 then (true, skipDigits r2) else (false, c :: r)
    else (false, c :: r)

/-- The unsigned part of a JSON number: integer part (no leading zero), then
optional fraction and exponent.  Returns whether the number is a float (a
fraction or exponent was present), the integer-part value, and the remaining
input. -/
def parseNumBody (l : List Char) : Option (Bool × Nat × List Char) :=
  match parseNat l with
  | none => none
  | some (n, l2) =>
    let f := parseFrac l2
    let e := parseExp f.2
    some (f.1 || e.1, n, e.2)

/-- A JSON number token, mirroring the scanner's number pattern: optional
minus sign, integer part, optional fraction and exponent.  With a fraction
or exponent the token is a float, kept as its matched text (the scanner
hands the matched text to `float`); otherwise it is an integer. -/
def parseNumber (l : List Char) : Option (Json × List Char) :=
  match l with
  | [] => none
  | c :: r =>
    if c = '-' then
      match parseNumBody r with
      | none => none
      | some (isFlt, n, l4) =>
        if isFlt then
          some (.flt (.finite (String.mk (l.take (l.length - l4.length)))), l4)
        else some (.num (-(n : Int)), l4)
    else
      match parseNumBody l with
      | none => none
      | some (isFlt, n, l4) =>
        if isFlt then
          some (.flt (.finite (String.mk (l.take (l.length - l4.length)))), l4)
        else some (.num ((n : Int)), l4)

/-- Consume an expected literal character sequence. -/
def dropLit : List Char → List Char → Option (List Char)
  | [], l => some l
  | p :: ps, c :: cs => if c = p then dropLit ps cs else none
  | _ :: _, [] => none

mutual

/-- Parse one JSON value (integers, floats, strings, booleans, `null`, the
`NaN`/`Infinity`/`-Infinity` constants the decoder accepts by default,
arrays, objects), skipping leading whitespace; `fuel` bounds the recursion
and is chosen larger than the input length at top level. -/
def parseValue : Nat → List Char → Option (Json × List Char)
  | 0, _ => none
  | fuel + 1, l =>
    match skipWs l with
    | [] => none
    | c :: r =>
      if c = 'n' then
        match r with
        | 'u' :: 'l' :: 'l' :: r2 => some (.null, r2)
        | _ => none
      else if c = 't' then
        match r with
        | 'r' :: 'u' :: 'e' :: r2 => some (.bool true, r2)
        | _ => none
      else if c = 'f' then
        match r with
        | 'a' :: 'l' :: 's' :: 'e' :: r2 => some (.bool false, r2)
        | _ => none
      else if c = qmark then (parseStringBody r).map (fun p => (.str (String.mk p.1), p.2))
      else if c = lbrace then
        match skipWs r with
        | [] => none
        | c2 :: r2 =>
          if c2 = rbrace then some (.obj [], r2)
          else (parseMembers fuel (c2 :: r2)).map (fun p => (.obj p.1, p.2))
      else if c = lbrack then
        match skipWs r with
        | [] => none
        | c2 :: r2 =>
          if c2 = rbrack then some (.arr [], r2)
          else (parseElems fuel (c2 :: r2)).map (fun p => (.arr p.1, p.2))
      else if c = 'N' then
        match dropLit ('a' :: 'N' :: []) r with
        | some r2 => some (.flt PyFloat.nan, r2)
        | none => none
      else if c = 'I' then
        match dropLit ('n' :: 'f' :: 'i' :: 'n' :: 'i' :: 't' :: 'y' :: []) r with
        | some r2 => some (.flt PyFloat.inf, r2)
        | none => none
      else if c = '-' then
        match dropLit ('I' :: 'n' :: 'f' :: 'i' :: 'n' :: 'i' :: 't' :: 'y' :: []) r with
        | some r2 => some (.flt PyFloat.ninf, r2)
        | none => parseNumber (c :: r)
      else parseNumber (c :: r)

/-- Parse the members of a JSON object after its opening brace (first key
already known not to be a closing brace), consuming the closing brace. -/
def parseMembers : Nat → List Char → Option (List (String × Json) × List Char)
  | 0, _ => none
  | fuel + 1, l =>
    match l with
    | [] => none
    | c :: r =>
      if c = qmark then
        match parseStringBody r with
        | none => none
        | some (k, r1) =>
          match skipWs r1 with
          | [] => none
          | c2 :: r2 =>
            if c2 = ':' then
              match parseValue fuel r2 with
              | none => none
              | some (v, r3) =>
                match skipWs r3 with
                | [] => none
                | c3 :: r4 =>
                  if c3 = ',' then
                    (parseMembers fuel (skipWs r4)).map
                      (fun p => ((String.mk k, v) :: p.1, p.2))
                  else if c3 = rbrace then some ([(String.mk k, v)], r4)
                  else none
            else none
      else none

/-- Parse the elements of a JSON array after its opening bracket (first
element known not to be a closing bracket), consuming the closing bracket. -/
def parseElems : Nat → List Char → Option (List Json × List Char)
  | 0, _ => none
  | fuel + 1, l =>
    match parseValue fuel l with
    | none => none
    | some (v, r) =>
      match skipWs r with
      | [] => none
      | c :: r2 =>
        if c = ',' then (parseElems fuel r2).map (fun p => (v :: p.1, p.2))
        else if c = rbrack then some ([v], r2)
        else none

end

/-- `json.loads` on a response body: one JSON value, with only whitespace
allowed after it. -/
def parseJson (s : String) : Option Json :=
  match parseValue (s.data.length + 1) s.data with
  | some (v, r) => if skipWs r = [] then some v else none
  | none => none

/-- `os.path.basename`: the part of the path after its last slash. -/
def basenameAux : List Char → List Char → List Char
  | [], acc => acc.reverse
  | c :: r, acc => if c = '/' then basenameAux r [] else basenameAux r (c :: acc)

/-- `os.path.basename` on a path string. -/
def basename (p : String) : String := String.mk (basenameAux p.data [])

/-- Outcome of one HTTP exchange as seen through the `requests` library:
status code, body text, `content-type` header (if present) and raw body
bytes.  `response.json()` is modelled as `parseJson` applied to the text. -/
structure Response where
  status_code : Nat
  text : String
  contentType : Option String
  content : List Nat

/-- The response envelope every client operation returns: a Python dict with
`success` always present and each remaining key present (`some`) or absent
(`none`) exactly as in the corresponding `return` statement of the source. -/
structure Envelope where
  success : Bool
  status_code : Option Nat := none
  data : Option Json := none
  error : Option String := none
  image_data : Option (List Nat) := none

/-- One outbound HTTP request as the client builds it: method, URL, optional
multipart file field (field name, filename, declared content type), optional
`config` form field (already JSON-serialized) and timeout in seconds. -/
structure Request where
  method : String
  url : String
  fileField : Option (String × String × String)
  dataConfig : Option String
  timeout : Nat

/-- The message carried by a `requests.exceptions.JSONDecodeError` converted
with `str`; the exact Python wording (line/column positions) is not modelled,
only that the failure produces a message. -/
def jsonDecodeErrorMsg : String := "Expecting value: line 1 column 1 (char 0)"

/-- `MangaTranslatorAPIClient.__init__`: host and port of the target server. -/
structure MangaTranslatorAPIClient where
  host : String
  port : Nat

/-- The derived base URL `http://{host}:{port}`. -/
def base_url (c : MangaTranslatorAPIClient) : String :=
  "http://" ++ c.host ++ ":" ++ toString c.port

/-- Abbreviation for the network outcome of a single HTTP call: a transport
failure (`requests.exceptions.RequestException` with its message) or a
response. -/
def Net : Type := Except String Response

/-- An error envelope `{"success": False, "error": str(e)}`. -/
def errEnvelope (msg : String) : Envelope :=
  { success := false, error := some msg }

/-- `test_health`: `GET /` with timeout 5; on success the decoded body, or the
placeholder object when the body is empty; a raised `RequestException`
(including a JSON decode failure of a non-empty body) is converted to an
error envelope. -/
def test_health (c : MangaTranslatorAPIClient) (net : Net) : Envelope × List Request :=
  let req : Request := { method := "GET", url := base_url c ++ "/",
                         fileField := none, dataConfig := none, timeout := 5 }
  match net with
  | .error e => (errEnvelope e, [req])
  | .ok r =>
    if r.text = "" then
      ({ success := true, status_code := some r.status_code,
         data := some (Json.obj [("message", Json.str "Server is running")]) }, [req])
    else
      match parseJson r.text with
      | some j => ({ success := true, status_code := some r.status_code, data := some j }, [req])
      | none => (errEnvelope jsonDecodeErrorMsg, [req])

/-- `config or {}` applied to the optional config dict. -/
def configOr (config : Option (List (String × Json))) : List (String × Json) :=
  config.getD []

/-- The multipart request shared by the three translate operations. -/
def translateRequest (c : MangaTranslatorAPIClient) (endpoint : String)
    (image_path : String) (config : Option (List (String × Json))) : Request :=
  { method := "POST", url := base_url c ++ endpoint,
    fileField := some ("image", basename image_path, "image/png"),
    dataConfig := some (dumps (Json.obj (configOr config))), timeout := 300 }

/-- `translate_json`: local existence check first (no request on failure),
then `POST /translate/with-form/json` and the decoded JSON body. -/
def translate_json (c : MangaTranslatorAPIClient) (fs : String → Bool) (net : Net)
    (image_path : String) (config : Option (List (String × Json))) : Envelope × List Request :=
  if fs image_path then
    let req := translateRequest c "/translate/with-form/json" image_path config
    match net with
    | .error e => (errEnvelope e, [req])
    | .ok r =>
      match parseJson r.text with
      | some j => ({ success := true, status_code := some r.status_code, data := some j }, [req])
      | none => (errEnvelope jsonDecodeErrorMsg, [req])
  else (errEnvelope ("File not found: " ++ image_path), [])

/-- `translate_image`: same request shape against `/translate/with-form/image`;
the envelope carries the declared content type (default `"unknown"`) and the
raw response bytes; the body is not JSON-decoded. -/
def translate_image (c : MangaTranslatorAPIClient) (fs : String → Bool) (net : Net)
    (image_path : String) (config : Option (List (String × Json))) : Envelope × List Request :=
  if fs image_path then
    let req := translateRequest c "/translate/with-form/image" image_path config
    match net with
    | .error e => (errEnvelope e, [req])
    | .ok r =>
      ({ success := true, status_code := some r.status_code,
         data := some (Json.str (r.contentType.getD "unknown")),
         image_data := some r.content }, [req])
  else (errEnvelope ("File not found: " ++ image_path), [])

/-- `translate_json_stream`: same request shape against
`/translate/with-form/json/stream`; only the declared content type is
reported, the body is not consumed. -/
def translate_json_stream (c : MangaTranslatorAPIClient) (fs : String → Bool) (net : Net)
    (image_path : String) (config : Option (List (String × Json))) : Envelope × List Request :=
  if fs image_path then
    let req := translateRequest c "/translate/with-form/json/stream" image_path config
    match net with
    | .error e => (errEnvelope e, [req])
    | .ok r =>
      ({ success := true, status_code := some r.status_code,
         data := some (Json.str (r.contentType.getD "unknown")) }, [req])
  else (errEnvelope ("File not found: " ++ image_path), [])

/-- `queue_size`: `GET /queue-size` with timeout 5; wraps the decoded scalar
body into an object under the key `queue_size`. -/
def queue_size (c : MangaTranslatorAPIClient) (net : Net) : Envelope × List Request :=
  let req : Request := { method := "GET", url := base_url c ++ "/queue-size",
                         fileField := none, dataConfig := none, timeout := 5 }
  match net with
  | .error e => (errEnvelope e, [req])
  | .ok r =>
    match parseJson r.text with
    | some j =>
      ({ success := true, status_code := some r.status_code,
         data := some (Json.obj [("queue_size", j)]) }, [req])
    | none => (errEnvelope jsonDecodeErrorMsg, [req])

/-- `results_list`: `GET /results/list` with timeout 5; returns the decoded
body verbatim. -/
def results_list (c : MangaTranslatorAPIClient) (net : Net) : Envelope × List Request :=
  let req : Request := { method := "GET", url := base_url c ++ "/results/list",
                         fileField := none, dataConfig := none, timeout := 5 }
  match net with
  | .error e => (errEnvelope e, [req])
  | .ok r =>
    match parseJson r.text with
    | some j => ({ success := true, status_code := some r.status_code, data := some j }, [req])
    | none => (errEnvelope jsonDecodeErrorMsg, [req])

/-- A client operation as invoked by the test runner. -/
inductive Op where
  | health
  | queueSize
  | resultsList
  | translateJson (image_path : String) (config : List (String × Json))

/-- Environment of one `run_tests` invocation: the local filesystem, whether
PIL can be imported, and one network outcome per endpoint the runner may
hit. -/
structure Env where
  fs : String → Bool
  pil : Bool
  healthNet : Net
  queueNet : Net
  resultsNet : Net
  translateNet : Net

/-- `create_sample_image`: with PIL available it writes the placeholder image
at the given path and returns that path; without PIL it creates nothing and
returns the empty string.  The second component is the filesystem after the
call. -/
def create_sample_image (pil : Bool) (fs : String → Bool) (output_path : String) :
    String × (String → Bool) :=
  if pil then (output_path, fun p => if p = output_path then true else fs p)
  else ("", fs)

/-- The fixed temporary path of the sample image in `run_tests`. -/
def samplePath : String := "/tmp/manga_sample.png"

/-- The sample configuration used by the translation test. -/
def sampleConfig : List (String × Json) :=
  [("source_lang", Json.str "ja"), ("target_lang", Json.str "en")]

/-- `run_tests`: the health check always runs first and its outcome is
recorded; selectors `all`/`health` return right after it; the remaining
blocks run for their respective selectors (`all` can no longer reach them).
The first component is the ordered result dict, the second the list of
client operations invoked (printing and sleeping are I/O only). -/
def run_tests (client : MangaTranslatorAPIClient) (env : Env) (test_type : String) :
    List (String × Bool) × List Op :=
  let hres := test_health client env.healthNet
  let results : List (String × Bool) := [("health", hres.1.success)]
  let ops : List Op := [Op.health]
  if test_type = "all" || test_type = "health" then (results, ops)
  else
    let step2 : List (String × Bool) × List Op :=
      if test_type = "all" || test_type = "queue" then
        let r := queue_size client env.queueNet
        (results ++ [("queue_size", r.1.success)], ops ++ [Op.queueSize])
      else (results, ops)
    let step3 : List (String × Bool) × List Op :=
      if test_type = "all" || test_type = "results" then
        let r := results_list client env.resultsNet
        (step2.1 ++ [("results_list", r.1.success)], step2.2 ++ [Op.resultsList])
      else step2
    if test_type = "all" || test_type = "translate" then
      let fs2 := (create_sample_image env.pil env.fs samplePath).2
      if fs2 samplePath then
        let r := translate_json client fs2 env.translateNet samplePath (some sampleConfig)
        (step3.1 ++ [("translate_json", r.1.success)],
         step3.2 ++ [Op.translateJson samplePath sampleConfig])
      else (step3.1 ++ [("translate_json", false)], step3.2)
    else step3

theorem char_toNat_ofNat {n : Nat} (h : Nat.isValidChar n) : (Char.ofNat n).toNat = n := by
  unfold Char.ofNat
  rw [dif_pos h]
  unfold Char.ofNatAux Char.toNat
  simp [UInt32.toNat]

theorem char_isValid (c : Char) : Nat.isValidChar c.toNat := c.valid

theorem hexDigitVal_hexDigitChar : ∀ d < 16, hexDigitVal (hexDigitChar d) = some d := by decide

theorem readHex4_writeHex4 {n : Nat} (h : n < 65536) (rest : List Char) :
    readHex4 (writeHex4 n ++ rest) = some (n, rest) := by
  have h1 : n / 4096 % 16 < 16 := Nat.mod_lt _ (by omega)
  have h2 : n / 256 % 16 < 16 := Nat.mod_lt _ (by omega)
  have h3 : n / 16 % 16 < 16 := Nat.mod_lt _ (by omega)
  have h4 : n % 16 < 16 := Nat.mod_lt _ (by omega)
  simp [writeHex4, readHex4, hexDigitVal_hexDigitChar _ h1, hexDigitVal_hexDigitChar _ h2,
    hexDigitVal_hexDigitChar _ h3, hexDigitVal_hexDigitChar _ h4]
  omega
set_option maxRecDepth 4096

theorem parseStringBodyF_encodeChar (c : Char) (fuel : Nat) (input : List Char) :
    parseStringBodyF (fuel + 1) (encodeChar c ++ input) =
      (parseStringBodyF fuel input).map (fun p => (c :: p.1, p.2)) := by
  have hvalid := char_isValid c
  unfold Nat.isValidChar at hvalid
  unfold encodeChar
  by_cases h1 : c = qmark
  · subst h1
    rw [parseStringBodyF.eq_def]
    simp [bslash, qmark]
  · rw [if_neg h1]
    by_cases h2 : c = bslash
    · subst h2
      rw [parseStringBodyF.eq_def]
      simp [bslash, qmark]
    · rw [if_neg h2]
      by_cases h3 : c = bsChar
      · subst h3
        rw [parseStringBodyF.eq_def]
        simp [bslash, qmark, bsChar]
      · rw [if_neg h3]
        by_cases h4 : c = tabChar
        · subst h4
          rw [parseStringBodyF.eq_def]
          simp [bslash, qmark, tabChar, bsChar]
        · rw [if_neg h4]
          by_cases h5 : c = nlChar
          · subst h5
            rw [parseStringBodyF.eq_def]
            simp [bslash, qmark, nlChar, bsChar, tabChar]
          · rw [if_neg h5]
            by_cases h6 : c = ffChar
            · subst h6
              rw [parseStringBodyF.eq_def]
              simp [bslash, qmark, ffChar, bsChar, tabChar, nlChar]
            · rw [if_neg h6]
              by_cases h7 : c = crChar
              · subst h7
                rw [parseStringBodyF.eq_def]
                simp [bslash, qmark, crChar, bsChar, tabChar, nlChar, ffChar]
              · rw [if_neg h7]
                by_cases h8 : c.toNat < 32
                · rw [if_pos h8]
                  rw [parseStringBodyF.eq_def]
                  have hlo : (55296 ≤ c.toNat && c.toNat ≤ 56319) = false := by
                    simp; omega
                  have hhi : (56320 ≤ c.toNat && c.toNat ≤ 57343) = false := by
                    simp; omega
                  simp [bslash, qmark, readHex4_writeHex4 (show c.toNat < 65536 by omega),
                    hlo, hhi, Char.ofNat_toNat]
                · rw [if_neg h8]
                  by_cases h9 : c.toNat ≤ 126
                  · rw [if_pos h9]
                    rw [parseStringBodyF.eq_def]
                    simp [h1, h2, h8]
                  · rw [if_neg h9]
                    by_cases h10 : c.toNat < 65536
                    · rw [if_pos h10]
                      rw [parseStringBodyF.eq_def]
                      have hlo : (55296 ≤ c.toNat && c.toNat ≤ 56319) = false := by
                        simp; omega
                      have hhi : (56320 ≤ c.toNat && c.toNat ≤ 57343) = false := by
                        simp; omega
                      simp [bslash, qmark, readHex4_writeHex4 h10, hlo, hhi, Char.ofNat_toNat]
                    · rw [if_neg h10]
                      have hub : c.toNat < 1114112 := by omega
                      have hhiv : 55296 + (c.toNat - 65536) / 1024 < 65536 := by omega
                      have hmod := Nat.mod_lt (c.toNat - 65536) (show 0 < 1024 by omega)
                      have hlov : 56320 + (c.toNat - 65536) % 1024 < 65536 := by omega
                      have hsur : (55296 ≤ 55296 + (c.toNat - 65536) / 1024 &&
                          55296 + (c.toNat - 65536) / 1024 ≤ 56319) = true := by
                        simp; omega
                      have hsur2 : (56320 ≤ 56320 + (c.toNat - 65536) % 1024 &&
                          56320 + (c.toNat - 65536) % 1024 ≤ 57343) = true := by
                        simp; omega
                      rw [parseStringBodyF.eq_def]
                      simp [bslash, qmark, readHex4_writeHex4 hhiv, readHex4_writeHex4 hlov,
                        hsur, hsur2]
                      rw [if_pos (show 55296 + (c.toNat - 65536) / 1024 <= 56319 by omega)]
                      rw [if_pos (show 56320 + (c.toNat - 65536) % 1024 <= 57343 by omega)]
                      have harg : 65536 + 1024 * ((c.toNat - 65536) / 1024) +
                          (c.toNat - 65536) % 1024 = c.toNat := by
                        have := Nat.div_add_mod (c.toNat - 65536) 1024
                        omega
                      rw [harg, Char.ofNat_toNat]

theorem encodeChar_length_pos (c : Char) : 0 < (encodeChar c).length := by
  unfold encodeChar
  repeat' split
  all_goals simp

theorem encodeChars_length_ge (s : List Char) : s.length ≤ (encodeChars s).length := by
  induction s with
  | nil => simp [encodeChars]
  | cons c cs ih =>
    have := encodeChar_length_pos c
    simp only [encodeChars, List.length_append, List.length_cons]
    omega

theorem parseStringBodyF_encodeChars (s : List Char) :
    ∀ (fuel : Nat) (rest : List Char), s.length ≤ fuel →
      parseStringBodyF (fuel + 1) (encodeChars s ++ qmark :: rest) = some (s, rest) := by
  induction s with
  | nil =>
    intro fuel rest _
    rw [parseStringBodyF.eq_def]
    simp [encodeChars]
  | cons c cs ih =>
    intro fuel rest hf
    match fuel with
    | f + 1 =>
      simp only [encodeChars, List.append_assoc]
      rw [parseStringBodyF_encodeChar]
      rw [ih f rest (by simpa using hf)]
      rfl

theorem parseStringBody_encodeChars (s rest : List Char) :
    parseStringBody (encodeChars s ++ qmark :: rest) = some (s, rest) := by
  unfold parseStringBody
  have hge := encodeChars_length_ge s
  have hlen : (encodeChars s ++ qmark :: rest).length + 1 =
      ((encodeChars s).length + rest.length + 1) + 1 := by simp; omega
  rw [hlen]
  exact parseStringBodyF_encodeChars s _ rest (by omega)

theorem digit_toNat {m : Nat} (h : m < 10) : (Char.ofNat (48 + m)).toNat = 48 + m :=
  char_toNat_ofNat (Or.inl (by omega))

theorem natDigitsAux_append (n : Nat) : ∀ acc : List Char,
    natDigitsAux n acc = natDigitsAux n [] ++ acc := by
  induction n using Nat.strong_induction_on with
  | _ n ih =>
    intro acc
    by_cases h : n < 10
    · have e : ∀ acc' : List Char, natDigitsAux n acc' = Char.ofNat (48 + n) :: acc' := by
        intro acc'
        rw [natDigitsAux, dif_pos h]
      rw [e, e]
      simp
    · have e : ∀ acc' : List Char,
          natDigitsAux n acc' = natDigitsAux (n / 10) (Char.ofNat (48 + n % 10) :: acc') := by
        intro acc'
        rw [natDigitsAux, dif_neg h]
      rw [e, e]
      rw [ih (n / 10) (by omega), ih (n / 10) (by omega) [Char.ofNat (48 + n % 10)]]
      simp

theorem natDigits_head (n : Nat) :
    ∃ c cs, natDigits n = c :: cs ∧ isDigitC c = true := by
  unfold natDigits
  induction n using Nat.strong_induction_on with
  | _ n ih =>
    by_cases h : n < 10
    · refine ⟨Char.ofNat (48 + n), [], ?_, ?_⟩
      · rw [natDigitsAux, dif_pos h]
      · simp [isDigitC, digit_toNat h]; omega
    · obtain ⟨c, cs, hc, hd⟩ := ih (n / 10) (by omega)
      refine ⟨c, cs ++ [Char.ofNat (48 + n % 10)], ?_, hd⟩
      rw [natDigitsAux, dif_neg h, natDigitsAux_append, hc]
      simp

theorem natDigits_pos_head {n : Nat} (hn : 0 < n) :
    ∃ c cs, natDigits n = c :: cs ∧ isDigitC c = true ∧ c ≠ '0' := by
  unfold natDigits
  induction n using Nat.strong_induction_on with
  | _ n ih =>
    by_cases h : n < 10
    · refine ⟨Char.ofNat (48 + n), [], ?_, ?_, ?_⟩
      · rw [natDigitsAux, dif_pos h]
      · simp [isDigitC, digit_toNat h]; omega
      · intro he
        have h2 : (Char.ofNat (48 + n)).toNat = ('0' : Char).toNat := by rw [he]
        have h3 : ('0' : Char).toNat = 48 := rfl
        rw [digit_toNat h, h3] at h2
        omega
    · obtain ⟨c, cs, hc, hd, hne⟩ := ih (n / 10) (by omega) (by omega)
      refine ⟨c, cs ++ [Char.ofNat (48 + n % 10)], ?_, hd, hne⟩
      rw [natDigitsAux, dif_neg h, natDigitsAux_append, hc]
      simp

/-- The first character of the remaining input is not a decimal digit (or the
input is empty): under this condition a number literal ends exactly where its
digits end. -/
def headNonDigit : List Char → Prop
  | [] => True
  | c :: _ => isDigitC c = false

theorem parseDigits_cons_digit {c : Char} (h : isDigitC c = true) (r : List Char) (a : Nat) :
    parseDigits (c :: r) a = parseDigits r (10 * a + (c.toNat - 48)) := by
  simp only [parseDigits]
  rw [if_pos h]

theorem parseDigits_nonDigit (rest : List Char) (a : Nat) (h : headNonDigit rest) :
    parseDigits rest a = (a, rest) := by
  match rest with
  | [] => rfl
  | c :: r =>
    unfold headNonDigit at h
    simp only [parseDigits]
    rw [if_neg (by simp [h])]

theorem parseDigits_natDigits (n : Nat) : ∀ (rest : List Char) (a : Nat),
    parseDigits (natDigits n ++ rest) a =
      parseDigits rest (a * 10 ^ (natDigits n).length + n) := by
  induction n using Nat.strong_induction_on with
  | _ n ih =>
    intro rest a
    by_cases h : n < 10
    · have hd : natDigits n = [Char.ofNat (48 + n)] := by
        unfold natDigits; rw [natDigitsAux, dif_pos h]
      have hdig : isDigitC (Char.ofNat (48 + n)) = true := by
        simp [isDigitC, digit_toNat h]; omega
      rw [hd]
      simp only [List.cons_append, List.nil_append, List.length_cons, List.length_nil]
      rw [parseDigits_cons_digit hdig, digit_toNat h]
      congr 1
      simp [pow_one]
      omega
    · have hd : natDigits n = natDigits (n / 10) ++ [Char.ofNat (48 + n % 10)] := by
        unfold natDigits; rw [natDigitsAux, dif_neg h, natDigitsAux_append]
      have hm : n % 10 < 10 := Nat.mod_lt _ (by omega)
      have hdig : isDigitC (Char.ofNat (48 + n % 10)) = true := by
        simp [isDigitC, digit_toNat hm]; omega
      rw [hd, List.append_assoc, ih (n / 10) (by omega)]
      simp only [List.cons_append, List.nil_append]
      rw [parseDigits_cons_digit hdig, digit_toNat hm]
      congr 1
      rw [List.length_append, List.length_cons, List.length_nil, pow_succ, ← mul_assoc]
      have hdm := Nat.div_add_mod n 10
      generalize a * 10 ^ (natDigits (n / 10)).length = Q
      omega

theorem parseNat_natDigits (n : Nat) (rest : List Char) (h : headNonDigit rest) :
    parseNat (natDigits n ++ rest) = some (n, rest) := by
  by_cases h0 : n = 0
  · subst h0
    have hz : natDigits 0 = ['0'] := by
      unfold natDigits; rw [natDigitsAux, dif_pos (by omega)]
    rw [hz]
    match rest with
    | [] => rfl
    | c :: r =>
      unfold headNonDigit at h
      simp [parseNat, h]
  · obtain ⟨c, cs, hc, hdig, hne⟩ := natDigits_pos_head (show 0 < n by omega)
    have key : parseDigits (natDigits n ++ rest) 0 = (n, rest) := by
      rw [parseDigits_natDigits, parseDigits_nonDigit rest _ h]
      simp
    rw [hc] at key ⊢
    simp only [List.cons_append] at key ⊢
    rw [parseDigits_cons_digit hdig] at key
    simp only [parseNat]
    rw [if_neg hne, if_pos hdig]
    rw [show 10 * 0 + (c.toNat - 48) = c.toNat - 48 by omega] at key
    rw [key]

/-- Primitive JSON values: the shapes a "mapping from string keys to primitive
values" may carry — null, booleans, integers, floats and strings. -/
def primVal : Json → Bool
  | .null => true
  | .bool _ => true
  | .num _ => true
  | .flt _ => true
  | .str _ => true
  | .arr _ => false
  | .obj _ => false

theorem string_mk_data (s : String) : String.mk s.data = s := rfl

theorem skipWs_cons_nonWs {c : Char} (h : isWsC c = false) (l : List Char) :
    skipWs (c :: l) = c :: l := by
  simp [skipWs, h]

theorem nonWs_of_digit {c : Char} (h : isDigitC c = true) : isWsC c = false := by
  unfold isDigitC at h
  simp at h
  unfold isWsC
  simp only [Bool.or_eq_false_iff]
  refine ⟨⟨⟨?_, ?_⟩, ?_⟩, ?_⟩
  all_goals
    simp only [decide_eq_false_iff_not]
    intro he
    rw [he] at h
    revert h
    decide

theorem ne_of_digit {c : Char} (h : isDigitC c = true) (d : Char) (hd : isDigitC d = false) :
    c ≠ d := by
  intro he
  rw [he, hd] at h
  cases h


/-- The remaining input continues past a complete number token: its first
character can extend neither the digit run nor start a fraction or exponent
(nor is it a sign a partial exponent could absorb). -/
def numBoundary : List Char → Prop
  | [] => True
  | c :: _ => isDigitC c = false ∧ c ≠ '.' ∧ c ≠ 'e' ∧ c ≠ 'E' ∧ c ≠ '+' ∧ c ≠ '-'

theorem numBoundary_headNonDigit {l : List Char} (h : numBoundary l) : headNonDigit l := by
  cases l with
  | nil => trivial
  | cons c r => exact h.1

theorem parseFrac_boundary {l : List Char} (h : numBoundary l) : parseFrac l = (false, l) := by
  cases l with
  | nil => rfl
  | cons c r =>
    simp only [parseFrac]
    rw [if_neg h.2.1]

theorem parseExp_boundary {l : List Char} (h : numBoundary l) : parseExp l = (false, l) := by
  cases l with
  | nil => rfl
  | cons c r =>
    simp only [parseExp]
    rw [if_neg (not_or.mpr ⟨h.2.2.1, h.2.2.2.1⟩)]

theorem skipDigits_boundary {l : List Char} (h : numBoundary l) : skipDigits l = l := by
  cases l with
  | nil => rfl
  | cons c r =>
    simp only [skipDigits]
    rw [if_neg (by simp [h.1])]

theorem skipDigits_extendApp (x : List Char) {rest : List Char} (h : numBoundary rest) :
    skipDigits (x ++ rest) = skipDigits x ++ rest := by
  induction x with
  | nil =>
    simp only [List.nil_append, skipDigits]
    exact skipDigits_boundary h
  | cons c x' ih =>
    simp only [List.cons_append, skipDigits, List.append_eq]
    by_cases hd : isDigitC c = true
    · rw [if_pos hd, if_pos hd, ih]
    · rw [if_neg hd, if_neg hd]
      simp

theorem parseDigits_extendApp (x : List Char) : ∀ (rest : List Char) (a : Nat), numBoundary rest →
    parseDigits (x ++ rest) a = ((parseDigits x a).1, (parseDigits x a).2 ++ rest) := by
  induction x with
  | nil =>
    intro rest a h
    simp only [List.nil_append, parseDigits]
    rw [parseDigits_nonDigit rest a (numBoundary_headNonDigit h)]
  | cons c x' ih =>
    intro rest a h
    simp only [List.cons_append, parseDigits, List.append_eq]
    by_cases hd : isDigitC c = true
    · rw [if_pos hd, if_pos hd, ih rest _ h]
    · rw [if_neg hd, if_neg hd]
      simp

theorem parseNat_extendApp (x : List Char) {rest : List Char} (h : numBoundary rest) :
    parseNat (x ++ rest) = (parseNat x).map (fun p => (p.1, p.2 ++ rest)) := by
  cases x with
  | nil =>
    simp only [List.nil_append, parseNat, Option.map_none']
    cases rest with
    | nil => rfl
    | cons c r =>
      have hc0 : ¬(c = '0') := by
        intro he
        rw [he] at h
        exact absurd h.1 (by decide)
      simp only [parseNat]
      rw [if_neg hc0, if_neg (by simp [h.1])]
  | cons c x' =>
    simp only [List.cons_append, parseNat, List.append_eq]
    by_cases hc : c = '0'
    · rw [if_pos hc, if_pos hc]
      cases x' with
      | nil =>
        simp only [List.nil_append, Option.map_some']
        cases rest with
        | nil => rfl
        | cons c2 r2 => simp [h.1]
      | cons c2 x'' =>
        simp only [List.cons_append, Option.map_some']
        by_cases hd2 : isDigitC c2 = true
        · simp [hd2]
        · simp [hd2]
    · by_cases hd : isDigitC c = true
      · rw [if_neg hc, if_neg hc, if_pos hd, if_pos hd]
        rw [parseDigits_extendApp x' rest _ h]
        rfl
      · rw [if_neg hc, if_neg hc, if_neg hd, if_neg hd]
        rfl

theorem parseFrac_extendApp (x : List Char) {rest : List Char} (h : numBoundary rest) :
    parseFrac (x ++ rest) = ((parseFrac x).1, (parseFrac x).2 ++ rest) := by
  cases x with
  | nil =>
    simp only [List.nil_append]
    rw [parseFrac_boundary h]
    simp [parseFrac]
  | cons c r =>
    simp only [List.cons_append, parseFrac, List.append_eq]
    by_cases hc : c = '.'
    · rw [if_pos hc, if_pos hc]
      cases r with
      | nil =>
        simp only [List.nil_append]
        cases rest with
        | nil => rfl
        | cons c2 r2 => simp [h.1]
      | cons c2 r2 =>
        simp only [List.cons_append]
        by_cases hd : isDigitC c2 = true
        · rw [if_pos hd, if_pos hd, skipDigits_extendApp r2 h]
        · rw [if_neg hd, if_neg hd]
          simp
    · rw [if_neg hc, if_neg hc]
      simp

theorem parseExp_extendApp (x : List Char) {rest : List Char} (h : numBoundary rest) :
    parseExp (x ++ rest) = ((parseExp x).1, (parseExp x).2 ++ rest) := by
  cases x with
  | nil =>
    simp only [List.nil_append]
    rw [parseExp_boundary h]
    simp [parseExp]
  | cons c r =>
    simp only [List.cons_append, parseExp, List.append_eq]
    by_cases hc : c = 'e' ∨ c = 'E'
    · rw [if_pos hc, if_pos hc]
      cases r with
      | nil =>
        simp only [List.nil_append]
        cases rest with
        | nil => rfl
        | cons c2 r2 =>
          have hns : ¬(c2 = '+' ∨ c2 = '-') := not_or.mpr ⟨h.2.2.2.2.1, h.2.2.2.2.2⟩
          simp [hns, h.1]
      | cons c2 r2 =>
        simp only [List.cons_append]
        by_cases hs : c2 = '+' ∨ c2 = '-'
        · rw [if_pos hs, if_pos hs]
          cases r2 with
          | nil =>
            simp only [List.nil_append]
            cases rest with
            | nil => rfl
            | cons c3 r3 => simp [h.1]
          | cons c3 r3 =>
            simp only [List.cons_append]
            by_cases hd : isDigitC c3 = true
            · rw [if_pos hd, if_pos hd, skipDigits_extendApp r3 h]
            · rw [if_neg hd, if_neg hd]
              simp
        · rw [if_neg hs, if_neg hs]
          by_cases hd : isDigitC c2 = true
          · rw [if_pos hd, if_pos hd, skipDigits_extendApp r2 h]
          · rw [if_neg hd, if_neg hd]
            simp
    · rw [if_neg hc, if_neg hc]
      simp

theorem parseNumBody_extendApp (x : List Char) {rest : List Char} (h : numBoundary rest) :
    parseNumBody (x ++ rest) =
      (parseNumBody x).map (fun p => (p.1, p.2.1, p.2.2 ++ rest)) := by
  unfold parseNumBody
  rw [parseNat_extendApp x h]
  cases hn : parseNat x with
  | none => rfl
  | some p =>
    obtain ⟨n, l2⟩ := p
    simp only [Option.map_some']
    rw [parseFrac_extendApp l2 h, parseExp_extendApp (parseFrac l2).2 h]

theorem parseNat_some_head {l : List Char} {p : Nat × List Char} (h : parseNat l = some p) :
    ∃ c cs, l = c :: cs ∧ isDigitC c = true := by
  cases l with
  | nil => simp [parseNat] at h
  | cons c cs =>
    refine ⟨c, cs, rfl, ?_⟩
    by_cases hc : c = '0'
    · rw [hc]
      decide
    · by_cases hd : isDigitC c = true
      · exact hd
      · simp [parseNat, hc, hd] at h

theorem parseNumBody_natDigits (n : Nat) {rest : List Char} (h : numBoundary rest) :
    parseNumBody (natDigits n ++ rest) = some (false, n, rest) := by
  unfold parseNumBody
  rw [parseNat_natDigits n rest (numBoundary_headNonDigit h)]
  simp [parseFrac_boundary h, parseExp_boundary h]

theorem parseNumber_natDigits (n : Nat) {rest : List Char} (h : numBoundary rest) :
    parseNumber (natDigits n ++ rest) = some (Json.num (n : Int), rest) := by
  obtain ⟨c, cs, hc, hdig⟩ := natDigits_head n
  rw [hc]
  simp only [List.cons_append, parseNumber]
  rw [if_neg (ne_of_digit hdig '-' (by decide))]
  rw [show c :: (cs ++ rest) = (c :: cs) ++ rest from rfl, ← hc]
  rw [parseNumBody_natDigits n h]
  simp

theorem parseNumber_negNatDigits (n : Nat) {rest : List Char} (h : numBoundary rest) :
    parseNumber ('-' :: (natDigits n ++ rest)) = some (Json.num (-(n : Int)), rest) := by
  simp only [parseNumber]
  rw [if_pos trivial, parseNumBody_natDigits n h]
  simp

theorem parseNumber_extendFlt {x : List Char} {t : String}
    (hx : parseNumber x = some (Json.flt (PyFloat.finite t), [])) {rest : List Char}
    (h : numBoundary rest) :
    parseNumber (x ++ rest) = some (Json.flt (PyFloat.finite t), rest) := by
  cases x with
  | nil => simp [parseNumber] at hx
  | cons c r =>
    have hlen : (c :: (r ++ rest)).length - rest.length = (c :: r).length := by
      simp only [List.length_append, List.length_cons]
      omega
    have htake : (c :: (r ++ rest)).take ((c :: (r ++ rest)).length - rest.length) = c :: r := by
      rw [hlen, show c :: (r ++ rest) = (c :: r) ++ rest from rfl]
      exact List.take_left (c :: r) rest
    simp only [List.cons_append, parseNumber] at hx ⊢
    by_cases hc : c = '-'
    · rw [if_pos hc] at hx ⊢
      cases hb : parseNumBody r with
      | none => rw [hb] at hx; cases hx
      | some q =>
        obtain ⟨b, n, l4⟩ := q
        rw [hb] at hx
        cases b with
        | false => simp at hx
        | true =>
          simp at hx
          obtain ⟨ht, hl4⟩ := hx
          subst hl4
          have ht2 : String.mk (c :: r) = t := by
            simpa [List.take_length] using ht
          rw [parseNumBody_extendApp r h, hb]
          simp only [Option.map_some', List.nil_append]
          rw [if_pos trivial, htake, ht2]
    · rw [if_neg hc] at hx ⊢
      cases hb : parseNumBody (c :: r) with
      | none => rw [hb] at hx; cases hx
      | some q =>
        obtain ⟨b, n, l4⟩ := q
        rw [hb] at hx
        cases b with
        | false => simp at hx
        | true =>
          simp at hx
          obtain ⟨ht, hl4⟩ := hx
          subst hl4
          have ht2 : String.mk (c :: r) = t := by
            simpa [List.take_length] using ht
          rw [show c :: (r ++ rest) = (c :: r) ++ rest from rfl,
            parseNumBody_extendApp (c :: r) h, hb]
          simp only [Option.map_some', List.nil_append, List.cons_append]
          rw [if_pos trivial, htake, ht2]

/-- The representation invariant of a finite-float payload: the text is one
complete number token that the scanner reads back exactly.  The `repr` text
of every finite Python float satisfies it. -/
def floatTextOk (s : String) : Bool :=
  match parseNumber s.data with
  | some (Json.flt (PyFloat.finite t), r) => t == s && r.isEmpty
  | _ => false

/-- Well-formedness of a primitive value's representation: finite-float
payloads must be scanner-exact number texts; all other values are
unconstrained. -/
def primWf : Json → Bool
  | .flt (.finite s) => floatTextOk s
  | _ => true

theorem floatTextOk_spec {s : String} (h : floatTextOk s = true) :
    parseNumber s.data = some (Json.flt (PyFloat.finite s), []) := by
  unfold floatTextOk at h
  cases hp : parseNumber s.data with
  | none => rw [hp] at h; cases h
  | some p =>
    obtain ⟨j, r⟩ := p
    rw [hp] at h
    cases j with
    | flt f =>
      cases f with
      | finite t =>
        simp only [Bool.and_eq_true, beq_iff_eq] at h
        obtain ⟨ht, hr⟩ := h
        rw [ht, List.isEmpty_iff.mp hr]
      | nan => cases h
      | inf => cases h
      | ninf => cases h
    | null => cases h
    | bool b => cases h
    | num n => cases h
    | str s2 => cases h
    | arr xs => cases h
    | obj fs => cases h

theorem parseValue_floatText (fuel : Nat) {x : List Char} {t : String}
    (hx : parseNumber x = some (Json.flt (PyFloat.finite t), [])) {rest : List Char}
    (hr : numBoundary rest) :
    parseValue (fuel + 1) (x ++ rest) = some (Json.flt (PyFloat.finite t), rest) := by
  cases x with
  | nil => simp [parseNumber] at hx
  | cons c r =>
    by_cases hc : c = '-'
    · subst hc
      have hbody : ∃ n, parseNumBody r = some (true, n, []) := by
        simp only [parseNumber, if_pos trivial] at hx
        cases hb : parseNumBody r with
        | none => rw [hb] at hx; cases hx
        | some q =>
          obtain ⟨b, n, l4⟩ := q
          rw [hb] at hx
          cases b with
          | false => simp at hx
          | true =>
            simp at hx
            exact ⟨n, by rw [hx.2]⟩
      obtain ⟨n, hb⟩ := hbody
      have hhead : ∃ c2 cs2, r = c2 :: cs2 ∧ isDigitC c2 = true := by
        unfold parseNumBody at hb
        cases hn : parseNat r with
        | none => rw [hn] at hb; cases hb
        | some q2 => exact parseNat_some_head hn
      obtain ⟨c2, cs2, hr2, hdig2⟩ := hhead
      simp only [List.cons_append, parseValue]
      rw [skipWs_cons_nonWs (by decide)]
      simp only [eq_false (show ('-' : Char) ≠ 'n' from by decide),
        eq_false (show ('-' : Char) ≠ 't' from by decide),
        eq_false (show ('-' : Char) ≠ 'f' from by decide),
        eq_false (show ('-' : Char) ≠ qmark from by decide),
        eq_false (show ('-' : Char) ≠ lbrace from by decide),
        eq_false (show ('-' : Char) ≠ lbrack from by decide),
        eq_false (show ('-' : Char) ≠ 'N' from by decide),
        eq_false (show ('-' : Char) ≠ 'I' from by decide),
        eq_self_iff_true, if_true, if_false]
      rw [hr2]
      simp only [List.cons_append, dropLit,
        eq_false (ne_of_digit hdig2 'I' (by decide)), if_false]
      rw [show c2 :: (cs2 ++ rest) = (c2 :: cs2) ++ rest from rfl, ← hr2]
      rw [show ('-' : Char) :: (r ++ rest) = ('-' :: r) ++ rest from rfl]
      exact parseNumber_extendFlt hx hr
    · have hdig : isDigitC c = true := by
        have hbody : ∃ q, parseNumBody (c :: r) = some q := by
          simp only [parseNumber, if_neg hc] at hx
          cases hb : parseNumBody (c :: r) with
          | none => rw [hb] at hx; cases hx
          | some q => exact ⟨q, rfl⟩
        obtain ⟨q, hb⟩ := hbody
        unfold parseNumBody at hb
        cases hn : parseNat (c :: r) with
        | none => rw [hn] at hb; cases hb
        | some q2 =>
          obtain ⟨c', cs', heq, hd⟩ := parseNat_some_head hn
          injection heq with h1 h2
          rw [h1]
          exact hd
      simp only [List.cons_append, parseValue]
      rw [skipWs_cons_nonWs (nonWs_of_digit hdig)]
      simp only [eq_false (ne_of_digit hdig 'n' (by decide)),
        eq_false (ne_of_digit hdig 't' (by decide)),
        eq_false (ne_of_digit hdig 'f' (by decide)),
        eq_false (ne_of_digit hdig qmark (by decide)),
        eq_false (ne_of_digit hdig lbrace (by decide)),
        eq_false (ne_of_digit hdig lbrack (by decide)),
        eq_false (ne_of_digit hdig 'N' (by decide)),
        eq_false (ne_of_digit hdig 'I' (by decide)),
        eq_false hc, if_false]
      rw [show c :: (r ++ rest) = (c :: r) ++ rest from rfl]
      exact parseNumber_extendFlt hx hr

theorem parseValue_dumpPrim (v : Json) (hp : primVal v = true) (hw : primWf v = true)
    (fuel : Nat) (rest : List Char) (hr : numBoundary rest) :
    parseValue (fuel + 1) (dumpValue v ++ rest) = some (v, rest) := by
  cases v with
  | arr xs => simp [primVal] at hp
  | obj fs => simp [primVal] at hp
  | null =>
    rw [parseValue.eq_def]
    simp [dumpValue, skipWs, isWsC, tabChar, nlChar, crChar]
  | bool b =>
    cases b <;>
      (rw [parseValue.eq_def]
       simp [dumpValue, skipWs, isWsC, tabChar, nlChar, crChar, qmark, lbrace, lbrack])
  | str s =>
    have hshape : dumpValue (Json.str s) ++ rest =
        qmark :: (encodeChars s.data ++ (qmark :: rest)) := by
      simp [dumpValue, dumpStr]
    rw [hshape]
    simp only [parseValue]
    rw [skipWs_cons_nonWs (by decide)]
    simp only [eq_false (show qmark ≠ 'n' from by decide),
      eq_false (show qmark ≠ 't' from by decide),
      eq_false (show qmark ≠ 'f' from by decide),
      eq_self_iff_true, if_true, if_false]
    rw [parseStringBody_encodeChars]
    simp [string_mk_data]
  | num i =>
    by_cases hi : i < 0
    · have hshape : dumpValue (Json.num i) ++ rest = '-' :: (natDigits (-i).toNat ++ rest) := by
        simp [dumpValue, intChars, if_pos hi]
      rw [hshape]
      simp only [parseValue]
      rw [skipWs_cons_nonWs (by decide)]
      simp only [eq_false (show ('-' : Char) ≠ 'n' from by decide),
        eq_false (show ('-' : Char) ≠ 't' from by decide),
        eq_false (show ('-' : Char) ≠ 'f' from by decide),
        eq_false (show ('-' : Char) ≠ qmark from by decide),
        eq_false (show ('-' : Char) ≠ lbrace from by decide),
        eq_false (show ('-' : Char) ≠ lbrack from by decide),
        eq_false (show ('-' : Char) ≠ 'N' from by decide),
        eq_false (show ('-' : Char) ≠ 'I' from by decide),
        eq_self_iff_true, if_true, if_false]
      obtain ⟨c2, cs2, hc2, hdig2⟩ := natDigits_head (-i).toNat
      rw [hc2]
      simp only [List.cons_append, dropLit,
        eq_false (ne_of_digit hdig2 'I' (by decide)), if_false]
      rw [show c2 :: (cs2 ++ rest) = (c2 :: cs2) ++ rest from rfl, ← hc2]
      rw [parseNumber_negNatDigits _ hr]
      have hcast : (((-i).toNat : Int)) = -i := Int.toNat_of_nonneg (by omega)
      simp [hcast]
    · have hshape : dumpValue (Json.num i) ++ rest = natDigits i.toNat ++ rest := by
        simp [dumpValue, intChars, if_neg hi]
      obtain ⟨c, cs, hc, hdig⟩ := natDigits_head i.toNat
      rw [hshape, hc]
      simp only [List.cons_append, parseValue]
      rw [skipWs_cons_nonWs (nonWs_of_digit hdig)]
      simp only [eq_false (ne_of_digit hdig 'n' (by decide)),
        eq_false (ne_of_digit hdig 't' (by decide)),
        eq_false (ne_of_digit hdig 'f' (by decide)),
        eq_false (ne_of_digit hdig qmark (by decide)),
        eq_false (ne_of_digit hdig lbrace (by decide)),
        eq_false (ne_of_digit hdig lbrack (by decide)),
        eq_false (ne_of_digit hdig 'N' (by decide)),
        eq_false (ne_of_digit hdig 'I' (by decide)),
        eq_false (ne_of_digit hdig '-' (by decide)),
        if_false]
      rw [show c :: (cs ++ rest) = (c :: cs) ++ rest from rfl, ← hc]
      rw [parseNumber_natDigits _ hr]
      have hcast : ((i.toNat : Int)) = i := Int.toNat_of_nonneg (by omega)
      simp [hcast]
  | flt f =>
    cases f with
    | nan =>
      rw [show dumpValue (Json.flt PyFloat.nan) ++ rest = 'N' :: 'a' :: 'N' :: rest from rfl]
      simp only [parseValue]
      rw [skipWs_cons_nonWs (by decide)]
      simp [dropLit, qmark, lbrace, lbrack]
    | inf =>
      rw [show dumpValue (Json.flt PyFloat.inf) ++ rest =
        'I' :: 'n' :: 'f' :: 'i' :: 'n' :: 'i' :: 't' :: 'y' :: rest from rfl]
      simp only [parseValue]
      rw [skipWs_cons_nonWs (by decide)]
      simp [dropLit, qmark, lbrace, lbrack]
    | ninf =>
      rw [show dumpValue (Json.flt PyFloat.ninf) ++ rest =
        '-' :: 'I' :: 'n' :: 'f' :: 'i' :: 'n' :: 'i' :: 't' :: 'y' :: rest from rfl]
      simp only [parseValue]
      rw [skipWs_cons_nonWs (by decide)]
      simp [dropLit, qmark, lbrace, lbrack]
    | finite s =>
      have hx := floatTextOk_spec (show floatTextOk s = true from by simpa [primWf] using hw)
      exact parseValue_floatText fuel hx hr
def allPrim (fields : List (String × Json)) : Bool :=
  fields.all (fun kv => primVal kv.2)

/-- Every finite-float payload of an association list is well formed
(the representation invariant of the embedding, satisfied by the `repr`
text of every Python float). -/
def allPrimWf (fields : List (String × Json)) : Bool :=
  fields.all (fun kv => primWf kv.2)

theorem skipWs_ws_cons {c : Char} (h : isWsC c = true) (l : List Char) :
    skipWs (c :: l) = skipWs l := by
  simp [skipWs, h]

theorem parseValue_ws (fuel : Nat) (c : Char) (l : List Char) (h : isWsC c = true) :
    parseValue (fuel + 1) (c :: l) = parseValue (fuel + 1) l := by
  simp only [parseValue]
  rw [skipWs_ws_cons h]

theorem dumpMembers_cons_shape (kv : String × Json) (tl : List (String × Json)) :
    ∃ tail_, dumpMembers (kv :: tl) = qmark :: tail_ := by
  obtain ⟨k, v⟩ := kv
  cases tl with
  | nil => exact ⟨_, rfl⟩
  | cons y t => exact ⟨_, rfl⟩

theorem dumpStr_length_pos (k : String) : 0 < (dumpStr k).length := by
  simp [dumpStr]

theorem dumpMembers_length_ge (fields : List (String × Json)) :
    fields.length ≤ (dumpMembers fields).length := by
  induction fields with
  | nil => simp
  | cons kv tl ih =>
    obtain ⟨k, v⟩ := kv
    cases tl with
    | nil =>
      have := dumpStr_length_pos k
      simp only [dumpMembers, List.length_append, List.length_cons, List.length_nil]
      omega
    | cons y t =>
      have h1 := dumpStr_length_pos k
      simp only [dumpMembers, List.length_append, List.length_cons, List.length_nil] at ih ⊢
      omega

theorem skipWs_colon (l : List Char) : skipWs (':' :: l) = ':' :: l :=
  skipWs_cons_nonWs (by decide) l

theorem skipWs_comma_cons (l : List Char) : skipWs (',' :: l) = ',' :: l :=
  skipWs_cons_nonWs (by decide) l

theorem skipWs_rbrace_cons (l : List Char) : skipWs (rbrace :: l) = rbrace :: l :=
  skipWs_cons_nonWs (by decide) l

theorem skipWs_space (l : List Char) : skipWs (' ' :: l) = skipWs l :=
  skipWs_ws_cons (by decide) l

theorem numBoundary_rbrace (l : List Char) : numBoundary (rbrace :: l) := by
  simp only [numBoundary]
  exact ⟨by decide, by decide, by decide, by decide, by decide, by decide⟩

theorem numBoundary_comma (l : List Char) : numBoundary (',' :: l) := by
  simp only [numBoundary]
  exact ⟨by decide, by decide, by decide, by decide, by decide, by decide⟩

theorem rbrace_comma_false : (rbrace = ',') = False := eq_false (by decide)

theorem skipWs_dumpMembers_cons (kv : String × Json) (tl : List (String × Json)) (l : List Char) :
    skipWs (dumpMembers (kv :: tl) ++ l) = dumpMembers (kv :: tl) ++ l := by
  obtain ⟨tail_, htail⟩ := dumpMembers_cons_shape kv tl
  rw [htail]
  simp only [List.cons_append]
  exact skipWs_cons_nonWs (by decide) _

theorem allPrim_cons (k : String) (v : Json) (tl : List (String × Json)) :
    allPrim ((k, v) :: tl) = (primVal v && allPrim tl) := by
  simp [allPrim]

theorem allPrimWf_cons (k : String) (v : Json) (tl : List (String × Json)) :
    allPrimWf ((k, v) :: tl) = (primWf v && allPrimWf tl) := by
  simp [allPrimWf]

theorem parseMembers_dumpMembers (fields : List (String × Json)) :
    ∀ (fuel : Nat) (rest : List Char), fields ≠ [] → allPrim fields = true →
      allPrimWf fields = true → fields.length + 1 ≤ fuel →
      parseMembers fuel (dumpMembers fields ++ rbrace :: rest) = some (fields, rest) := by
  induction fields with
  | nil => intro fuel rest hne; exact absurd rfl hne
  | cons kv tl ih =>
    intro fuel rest _ hp hw hf
    obtain ⟨k, v⟩ := kv
    rw [allPrim_cons, Bool.and_eq_true] at hp
    obtain ⟨hpv, hptl⟩ := hp
    rw [allPrimWf_cons, Bool.and_eq_true] at hw
    obtain ⟨hwv, hwtl⟩ := hw
    match fuel with
    | (f + 1) + 1 =>
      cases tl with
      | nil =>
        have hshape : dumpMembers [(k, v)] ++ rbrace :: rest =
            qmark :: (encodeChars k.data ++
              (qmark :: (':' :: ' ' :: (dumpValue v ++ rbrace :: rest)))) := by
          simp [dumpMembers, dumpStr]
        rw [hshape]
        simp only [parseMembers, eq_self_iff_true, if_true, parseStringBody_encodeChars,
          skipWs_colon, parseValue_ws f ' ' _ (by decide),
          parseValue_dumpPrim v hpv hwv f (rbrace :: rest) (numBoundary_rbrace rest),
          skipWs_rbrace_cons, rbrace_comma_false, if_false, string_mk_data]
      | cons y t =>
        have hshape : dumpMembers ((k, v) :: y :: t) ++ rbrace :: rest =
            qmark :: (encodeChars k.data ++
              (qmark :: (':' :: ' ' :: (dumpValue v ++
                ',' :: ' ' :: (dumpMembers (y :: t) ++ rbrace :: rest))))) := by
          simp [dumpMembers, dumpStr]
        have hih := ih (f + 1) rest (by simp)
          hptl hwtl (by simp only [List.length_cons] at hf ⊢; omega)
        rw [hshape]
        simp only [parseMembers, eq_self_iff_true, if_true, parseStringBody_encodeChars,
          skipWs_colon, parseValue_ws f ' ' _ (by decide),
          parseValue_dumpPrim v hpv hwv f
            (',' :: ' ' :: (dumpMembers (y :: t) ++ rbrace :: rest)) (numBoundary_comma _),
          skipWs_comma_cons, skipWs_space, skipWs_dumpMembers_cons, string_mk_data]
        simp only [parseMembers] at hih
        rw [hih]
        simp [string_mk_data]

theorem skipWs_lbrace_cons (l : List Char) : skipWs (lbrace :: l) = lbrace :: l :=
  skipWs_cons_nonWs (by decide) l

theorem parseValue_dumpObj (fields : List (String × Json)) (hp : allPrim fields = true)
    (hw : allPrimWf fields = true)
    (fuel : Nat) (hf : fields.length + 1 ≤ fuel) (rest : List Char) :
    parseValue (fuel + 1) (dumpValue (Json.obj fields) ++ rest) =
      some (Json.obj fields, rest) := by
  have hdv : dumpValue (Json.obj fields) ++ rest =
      lbrace :: (dumpMembers fields ++ (rbrace :: rest)) := by
    simp [dumpValue]
  rw [hdv]
  cases fields with
  | nil =>
    simp only [dumpMembers, List.nil_append]
    simp only [parseValue, skipWs_lbrace_cons,
      eq_false (show lbrace ≠ 'n' from by decide),
      eq_false (show lbrace ≠ 't' from by decide),
      eq_false (show lbrace ≠ 'f' from by decide),
      eq_false (show lbrace ≠ qmark from by decide),
      eq_self_iff_true, if_true, if_false, skipWs_rbrace_cons]
  | cons kv tl =>
    have hfin := parseMembers_dumpMembers (kv :: tl) fuel rest (by simp) hp hw hf
    obtain ⟨tail_, htail⟩ := dumpMembers_cons_shape kv tl
    simp only [parseValue, skipWs_lbrace_cons,
      eq_false (show lbrace ≠ 'n' from by decide),
      eq_false (show lbrace ≠ 't' from by decide),
      eq_false (show lbrace ≠ 'f' from by decide),
      eq_false (show lbrace ≠ qmark from by decide),
      eq_self_iff_true, if_true, if_false, skipWs_dumpMembers_cons]
    rw [htail]
    simp only [List.cons_append, eq_false (show qmark ≠ rbrace from by decide), if_false]
    rw [show qmark :: (tail_ ++ rbrace :: rest) = dumpMembers (kv :: tl) ++ rbrace :: rest from by
      rw [htail]; simp]
    rw [hfin]
    rfl

theorem parseJson_dumps_obj (fields : List (String × Json)) (hp : allPrim fields = true)
    (hw : allPrimWf fields = true) :
    parseJson (dumps (Json.obj fields)) = some (Json.obj fields) := by
  unfold parseJson dumps
  have hdata : (String.mk (dumpValue (Json.obj fields))).data = dumpValue (Json.obj fields) := rfl
  rw [hdata]
  have hlen : (dumpValue (Json.obj fields)).length + 1 =
      ((dumpMembers fields).length + 2) + 1 := by
    simp [dumpValue]
  rw [hlen]
  have hpv := parseValue_dumpObj fields hp hw ((dumpMembers fields).length + 2)
    (by have := dumpMembers_length_ge fields; omega) []
  rw [List.append_nil] at hpv
  rw [hpv]
  simp [skipWs]

/-- Transport-level failure of an operation that JSON-decodes its response
body, per the error taxonomy of spec section 7: a raised
`RequestException` (connection refused, timeout, DNS failure) or a malformed
(undecodable) body, whose `JSONDecodeError` is a `RequestException` as well. -/
def jsonOpTransportFailure : Net → Bool
  | .error _ => true
  | .ok r => (parseJson r.text).isNone


/-- Python float equality: `nan` is unequal to everything, itself included;
each infinity equals itself; finite floats compare by their canonical repr
text, on which textual equality coincides with float equality (`repr` is
injective on floats). -/
def pyFloatEq : PyFloat → PyFloat → Bool
  | .nan, _ => false
  | _, .nan => false
  | .inf, .inf => true
  | .ninf, .ninf => true
  | .finite s, .finite t => s == t
  | _, _ => false

mutual

/-- Python's `==` on decoded JSON values.  Dicts are compared pointwise in
insertion order (decoding preserves insertion order, and the round-trip
statements compare an object with its decoded copy, where the orders agree);
the cross-type numeric equality `1 == 1.0` is not modelled, as it cannot
arise between a value and its round-tripped copy. -/
def jsonEqPy : Json → Json → Bool
  | .null, .null => true
  | .bool a, .bool b => a == b
  | .num a, .num b => a == b
  | .flt a, .flt b => pyFloatEq a b
  | .str a, .str b => a == b
  | .arr xs, .arr ys => jsonEqPyList xs ys
  | .obj xs, .obj ys => jsonEqPyFields xs ys
  | _, _ => false

/-- Pointwise Python `==` on array elements. -/
def jsonEqPyList : List Json → List Json → Bool
  | [], [] => true
  | x :: xs, y :: ys => jsonEqPy x y && jsonEqPyList xs ys
  | _, _ => false

/-- Pointwise Python `==` on ordered object members. -/
def jsonEqPyFields : List (String × Json) → List (String × Json) → Bool
  | [], [] => true
  | (k, v) :: t, (k2, v2) :: t2 => k == k2 && jsonEqPy v v2 && jsonEqPyFields t t2
  | _, _ => false

end

/-- The value is not the float NaN — the only primitive value Python's `==`
makes unequal to its own decoded copy. -/
def noNaNVal : Json → Bool
  | .flt .nan => false
  | _ => true

/-- No value of the mapping is the float NaN. -/
def noNaNFields (fields : List (String × Json)) : Bool :=
  fields.all (fun kv => noNaNVal kv.2)

theorem jsonEqPy_refl_prim {v : Json} (hp : primVal v = true) (hn : noNaNVal v = true) :
    jsonEqPy v v = true := by
  cases v with
  | null => rfl
  | bool b => simp [jsonEqPy]
  | num n => simp [jsonEqPy]
  | str s => simp [jsonEqPy]
  | flt f =>
    cases f with
    | nan => cases hn
    | inf => rfl
    | ninf => rfl
    | finite s => simp [jsonEqPy, pyFloatEq]
  | arr xs => simp [primVal] at hp
  | obj fs => simp [primVal] at hp

theorem jsonEqPyFields_refl (fields : List (String × Json)) :
    allPrim fields = true → noNaNFields fields = true →
      jsonEqPyFields fields fields = true := by
  induction fields with
  | nil => intro _ _; rfl
  | cons kv tl ih =>
    intro hp hn
    obtain ⟨k, v⟩ := kv
    rw [allPrim_cons, Bool.and_eq_true] at hp
    rw [show noNaNFields ((k, v) :: tl) = (noNaNVal v && noNaNFields tl) from by
      simp [noNaNFields], Bool.and_eq_true] at hn
    simp [jsonEqPyFields, jsonEqPy_refl_prim hp.1 hn.1, ih hp.2 hn.2]

theorem jsonEqPy_obj_refl (fields : List (String × Json)) (hp : allPrim fields = true)
    (hn : noNaNFields fields = true) :
    jsonEqPy (Json.obj fields) (Json.obj fields) = true := by
  rw [show jsonEqPy (Json.obj fields) (Json.obj fields) =
    jsonEqPyFields fields fields from rfl]
  exact jsonEqPyFields_refl fields hp hn
/-- Transport-level failure of an operation that never decodes its body
(`translate_image`, `translate_json_stream`): only a raised
`RequestException`. -/
def rawOpTransportFailure : Net → Bool
  | .error _ => true
  | .ok _ => false

/-- Transport-level failure of `test_health`: a raised `RequestException`, or
a malformed non-empty body (an empty body is never decoded). -/
def healthTransportFailure : Net → Bool
  | .error _ => true
  | .ok r => if r.text = "" then false else (parseJson r.text).isNone

/-- The client configuration used by concrete witnesses: the script's
defaults `localhost:8000`. -/
def defaultClient : MangaTranslatorAPIClient := { host := "localhost", port := 8000 }

/-- A filesystem on which every path exists. -/
def allFiles : String → Bool := fun _ => true

/-- A filesystem on which no path exists. -/
def noFiles : String → Bool := fun _ => false

/-- A concrete successful response: HTTP 200 with body text of an empty JSON
object. -/
def okResp : Response :=
  { status_code := 200, text := "\x7b\x7d", contentType := some "application/json", content := [] }

/-- A concrete transport failure. -/
def errNet : Net := Except.error "connection refused"

/-- A concrete environment in which every network call fails, no file exists
and PIL is unavailable. -/
def cexEnv : Env :=
  { fs := noFiles, pil := false, healthNet := errNet, queueNet := errNet,
    resultsNet := errNet, translateNet := errNet }

/-- A concrete environment with PIL unavailable but a stale sample image
already present at the fixed temporary path, and a translation endpoint that
answers HTTP 200 with a JSON body. -/
def staleEnv : Env :=
  { fs := fun p => p == samplePath, pil := false, healthNet := errNet, queueNet := errNet,
    resultsNet := errNet, translateNet := Except.ok okResp }

/-- C2: with selector `health` or the default selector `all`, `run_tests`
executes exactly one client operation, the health check, and returns right
after it with the result set containing exactly the key `health` mapped to
the health-check outcome; queue-size, results-list and translate are never
invoked. -/
theorem runTests_all_health (c : MangaTranslatorAPIClient) (env : Env) :
    run_tests c env "all" =
      ([("health", (test_health c env.healthNet).1.success)], [Op.health])
    ∧ run_tests c env "health" =
      ([("health", (test_health c env.healthNet).1.success)], [Op.health]) := by
  constructor <;> (unfold run_tests; simp)

/-- C1 counterexample: with selector `queue` against a concrete environment,
the runner does invoke the queue-size operation and the result set contains
the key `queue_size` besides `health`; the claimed immediate return after the
health check does not happen on this selector. -/
theorem runTests_queue_counterexample :
    Op.queueSize ∈ (run_tests defaultClient cexEnv "queue").2 ∧
      List.lookup "queue_size" (run_tests defaultClient cexEnv "queue").1 = some false := by
  constructor
  · have h : (run_tests defaultClient cexEnv "queue").2 = [Op.health, Op.queueSize] := rfl
    rw [h]
    exact List.Mem.tail _ (List.Mem.head _)
  · rfl

/-- C1 amended: with selector `queue` the early return after the health check
does not fire (it fires only for `all`/`health`); the runner executes the
health check and then the queue-size operation, and returns the result set
with exactly the keys `health` and `queue_size`. -/
theorem runTests_queue_amended (c : MangaTranslatorAPIClient) (env : Env) :
    run_tests c env "queue" =
      ([("health", (test_health c env.healthNet).1.success),
        ("queue_size", (queue_size c env.queueNet).1.success)],
       [Op.health, Op.queueSize]) := by
  unfold run_tests
  simp

/-- C4: calling any of the three translate operations with a path that does
not exist returns exactly the envelope with success false and error message
`File not found: <path>`, and issues zero outbound requests. -/
theorem translate_missing_file (c : MangaTranslatorAPIClient) (fs : String → Bool) (net : Net)
    (p : String) (cfg : Option (List (String × Json))) (hp : fs p = false) :
    translate_json c fs net p cfg = (errEnvelope ("File not found: " ++ p), [])
    ∧ translate_image c fs net p cfg = (errEnvelope ("File not found: " ++ p), [])
    ∧ translate_json_stream c fs net p cfg = (errEnvelope ("File not found: " ++ p), []) := by
  refine ⟨?_, ?_, ?_⟩ <;> simp [translate_json, translate_image, translate_json_stream, hp]

/-- Witness for C4 at a concrete missing path. -/
theorem translate_missing_file_witness :
    noFiles "/tmp/missing.png" = false ∧
      translate_json defaultClient noFiles errNet "/tmp/missing.png" none =
        (errEnvelope "File not found: /tmp/missing.png", []) :=
  ⟨rfl, (translate_missing_file defaultClient noFiles errNet "/tmp/missing.png" none rfl).1⟩

/-- C5: against a server answering `GET /` with HTTP 200 and an empty body,
`test_health` returns exactly success true, status code 200 and the
placeholder data object. -/
theorem test_health_empty_body (c : MangaTranslatorAPIClient) (ct : Option String)
    (bs : List Nat) :
    (test_health c (Except.ok (Response.mk 200 "" ct bs))).1 =
      { success := true, status_code := some 200,
        data := some (Json.obj [("message", Json.str "Server is running")]) } := by
  simp [test_health]

/-- C6: against a server answering `GET /queue-size` with HTTP 200 and JSON
body `42`, `queue_size` returns exactly success true, status code 200 and
data wrapping the scalar as `queue_size`; in general any decoded body `v` is
wrapped as the value of the key `queue_size`. -/
theorem queue_size_wraps_scalar (c : MangaTranslatorAPIClient) (ct : Option String)
    (bs : List Nat) :
    (queue_size c (Except.ok (Response.mk 200 "42" ct bs))).1 =
      { success := true, status_code := some 200,
        data := some (Json.obj [("queue_size", Json.num 42)]) }
    ∧ (∀ (r : Response) (v : Json), parseJson r.text = some v →
        (queue_size c (Except.ok r)).1 =
          { success := true, status_code := some r.status_code,
            data := some (Json.obj [("queue_size", v)]) }) := by
  constructor
  · rfl
  · intro r v hv
    simp [queue_size, hv]

/-- Witness for C6's general wrapping clause at a concrete body `7`. -/
theorem queue_size_wraps_scalar_witness :
    parseJson "7" = some (Json.num 7) ∧
      (queue_size defaultClient (Except.ok (Response.mk 503 "7" none []))).1 =
        { success := true, status_code := some 503,
          data := some (Json.obj [("queue_size", Json.num 7)]) } :=
  ⟨rfl, (queue_size_wraps_scalar defaultClient none []).2
    (Response.mk 503 "7" none []) (Json.num 7) rfl⟩

/-- C9: for every client, filesystem, network outcome and path, each translate
operation returns identical envelopes and identical outbound requests when
called with no config (`None`) and with an explicitly empty config mapping,
both of which serialize the `config` form field to the two-character string
of an empty JSON object. -/
theorem translate_none_config_eq_empty (c : MangaTranslatorAPIClient) (fs : String → Bool)
    (net : Net) (p : String) :
    translate_json c fs net p none = translate_json c fs net p (some [])
    ∧ translate_image c fs net p none = translate_image c fs net p (some [])
    ∧ translate_json_stream c fs net p none = translate_json_stream c fs net p (some [])
    ∧ dumps (Json.obj (configOr none)) = "\x7b\x7d"
    ∧ dumps (Json.obj (configOr (some []))) = "\x7b\x7d" :=
  ⟨rfl, rfl, rfl, rfl, rfl⟩

/-- C3: for every operation and server behavior, the envelope's success flag
is true exactly when the call completed without a transport-level failure (in
the taxonomy of spec section 7, which counts a malformed body as a transport
failure where a body is decoded); any HTTP status code, 4xx/5xx included, is
carried in a success envelope; and a raised transport exception is always
converted into the error envelope carrying its message. -/
theorem envelope_success_iff_transport (c : MangaTranslatorAPIClient) (fs : String → Bool)
    (net : Net) (p : String) (cfg : Option (List (String × Json))) (hp : fs p = true) :
    ((test_health c net).1.success = !healthTransportFailure net)
    ∧ ((translate_json c fs net p cfg).1.success = !jsonOpTransportFailure net)
    ∧ ((translate_image c fs net p cfg).1.success = !rawOpTransportFailure net)
    ∧ ((translate_json_stream c fs net p cfg).1.success = !rawOpTransportFailure net)
    ∧ ((queue_size c net).1.success = !jsonOpTransportFailure net)
    ∧ ((results_list c net).1.success = !jsonOpTransportFailure net)
    ∧ (∀ r : Response, net = Except.ok r →
        ((test_health c net).1.success = true →
          (test_health c net).1.status_code = some r.status_code)
        ∧ ((translate_json c fs net p cfg).1.success = true →
          (translate_json c fs net p cfg).1.status_code = some r.status_code)
        ∧ ((translate_image c fs net p cfg).1.success = true →
          (translate_image c fs net p cfg).1.status_code = some r.status_code)
        ∧ ((translate_json_stream c fs net p cfg).1.success = true →
          (translate_json_stream c fs net p cfg).1.status_code = some r.status_code)
        ∧ ((queue_size c net).1.success = true →
          (queue_size c net).1.status_code = some r.status_code)
        ∧ ((results_list c net).1.success = true →
          (results_list c net).1.status_code = some r.status_code))
    ∧ (∀ e : String, net = Except.error e →
        (test_health c net).1 = errEnvelope e
        ∧ (translate_json c fs net p cfg).1 = errEnvelope e
        ∧ (translate_image c fs net p cfg).1 = errEnvelope e
        ∧ (translate_json_stream c fs net p cfg).1 = errEnvelope e
        ∧ (queue_size c net).1 = errEnvelope e
        ∧ (results_list c net).1 = errEnvelope e) := by
  cases net with
  | error e =>
    simp [test_health, translate_json, translate_image, translate_json_stream, queue_size,
      results_list, healthTransportFailure, jsonOpTransportFailure, rawOpTransportFailure,
      errEnvelope, hp] <;> (intro x hx; cases hx; rfl)
  | ok r =>
    by_cases ht : r.text = ""
    · have hj0 : parseJson "" = none := rfl
      simp [test_health, translate_json, translate_image, translate_json_stream, queue_size,
        results_list, healthTransportFailure, jsonOpTransportFailure, rawOpTransportFailure,
        errEnvelope, hp, ht, hj0] <;> (intro x hx; cases hx; rfl)
    · cases hj : parseJson r.text <;>
        simp [test_health, translate_json, translate_image, translate_json_stream, queue_size,
          results_list, healthTransportFailure, jsonOpTransportFailure, rawOpTransportFailure,
          errEnvelope, hp, ht, hj] <;> (intro x hx; cases hx; rfl)

/-- Witness for C3 at a concrete existing file and a concrete 200 response. -/
theorem envelope_success_iff_transport_witness :
    allFiles "/tmp/sample.png" = true ∧
      (translate_json defaultClient allFiles (Except.ok okResp) "/tmp/sample.png" none).1.success =
        !jsonOpTransportFailure (Except.ok okResp) :=
  ⟨rfl, (envelope_success_iff_transport defaultClient allFiles (Except.ok okResp)
    "/tmp/sample.png" none rfl).2.1⟩

/-- C7 counterexample: with PIL unavailable but a stale sample image already
present at the fixed temporary path, the translate selector does not record
the translation test as failed: the runner calls `translate_json` on the
stale file and records its successful outcome. -/
theorem translate_selector_counterexample :
    staleEnv.pil = false ∧
      List.lookup "translate_json" (run_tests defaultClient staleEnv "translate").1 =
        some true := ⟨rfl, rfl⟩

/-- C7 amended: with selector `translate`, an unavailable PIL makes
`create_sample_image` create nothing; the translation test is recorded as
failed only when additionally the sample path does not already exist on disk,
and otherwise (PIL available, which creates the file, or a pre-existing file)
`translate_json` is invoked on the sample path with the sample configuration
`source_lang ja, target_lang en` and its outcome recorded. -/
theorem translate_selector_amended (c : MangaTranslatorAPIClient) (env : Env) :
    create_sample_image false env.fs samplePath = ("", env.fs)
    ∧ List.lookup "translate_json" (run_tests c env "translate").1 =
        some (if env.pil || env.fs samplePath then
            (translate_json c (create_sample_image env.pil env.fs samplePath).2 env.translateNet
              samplePath (some sampleConfig)).1.success
          else false)
    ∧ (Op.translateJson samplePath sampleConfig ∈ (run_tests c env "translate").2 ↔
        (env.pil || env.fs samplePath) = true) := by
  have hfs2 : (create_sample_image env.pil env.fs samplePath).2 samplePath =
      (env.pil || env.fs samplePath) := by
    unfold create_sample_image
    cases env.pil <;> simp
  refine ⟨rfl, ?_, ?_⟩ <;>
    (unfold run_tests
     simp only [hfs2]
     cases hcond : env.pil || env.fs samplePath <;> simp [hcond, List.lookup])

/-- C10: for every recognized selector, the result set of `run_tests` starts
with the key `health` (the health check runs first unconditionally), every
key is one of `health`, `queue_size`, `results_list`, `translate_json`, and
every recorded value is a boolean. -/
theorem runTests_results_invariant (c : MangaTranslatorAPIClient) (env : Env) (sel : String)
    (hsel : sel = "all" ∨ sel = "health" ∨ sel = "translate" ∨ sel = "queue" ∨
      sel = "results") :
    ((run_tests c env sel).1.map Prod.fst).head? = some "health"
    ∧ (∀ k ∈ (run_tests c env sel).1.map Prod.fst,
        k = "health" ∨ k = "queue_size" ∨ k = "results_list" ∨ k = "translate_json")
    ∧ (∀ kv ∈ (run_tests c env sel).1, kv.2 = true ∨ kv.2 = false) := by
  have hbool : ∀ b : Bool, b = true ∨ b = false := fun b => by cases b <;> simp
  rcases hsel with rfl | rfl | rfl | rfl | rfl <;>
    (unfold run_tests) <;>
    first
      | (simp
         exact ⟨fun kv hkv => hbool kv⟩)
      | (cases hfs : (create_sample_image env.pil env.fs samplePath).2 samplePath <;>
          simp [hfs] <;> exact ⟨fun kv hkv => hbool kv⟩)
      | simp

/-- Witness for C10 at the `queue` selector and a concrete environment. -/
theorem runTests_results_invariant_witness :
    ((run_tests defaultClient cexEnv "queue").1.map Prod.fst).head? = some "health"
    ∧ (∀ k ∈ (run_tests defaultClient cexEnv "queue").1.map Prod.fst,
        k = "health" ∨ k = "queue_size" ∨ k = "results_list" ∨ k = "translate_json")
    ∧ (∀ kv ∈ (run_tests defaultClient cexEnv "queue").1, kv.2 = true ∨ kv.2 = false) :=
  runTests_results_invariant defaultClient cexEnv "queue"
    (Or.inr (Or.inr (Or.inr (Or.inl rfl))))

/-- C8 counterexample: serializing the mapping whose single value is the
float NaN and decoding the result succeeds and reproduces the NaN (the
encoder emits the `NaN` constant under its default `allow_nan=True`, and the
decoder reads it back), yet the decoded object is not equal to the original
under Python's `==` (modelled by `jsonEqPy`), because `nan != nan`. -/
theorem config_roundtrip_nan_counterexample :
    parseJson (dumps (Json.obj [("a", Json.flt PyFloat.nan)])) =
      some (Json.obj [("a", Json.flt PyFloat.nan)])
    ∧ jsonEqPy (Json.obj [("a", Json.flt PyFloat.nan)])
        (Json.obj [("a", Json.flt PyFloat.nan)]) = false := ⟨rfl, rfl⟩

/-- C8 amended: serializing a configuration object — a mapping from string
keys to primitive values (null, booleans, integers, floats, strings), finite
floats carried by their canonical repr text (the embedding's representation
invariant `allPrimWf`, satisfied by the repr of every Python float) — with
`json.dumps`, and decoding the resulting string, yields an object equal to
the original under Python's `==` whenever no value is the float NaN; with a
NaN value decoding still succeeds but the result is not equal to the
original, as the counterexample shows. -/
theorem config_roundtrip_amended (fields : List (String × Json))
    (hp : allPrim fields = true) (hw : allPrimWf fields = true)
    (hn : noNaNFields fields = true) :
    parseJson (dumps (Json.obj fields)) = some (Json.obj fields)
    ∧ jsonEqPy (Json.obj fields) (Json.obj fields) = true :=
  ⟨parseJson_dumps_obj fields hp hw, jsonEqPy_obj_refl fields hp hn⟩

/-- Witness for C8's amended round trip on a concrete mapping exercising
finite floats in point and exponent form, an infinity, negative integers,
booleans, null and non-ASCII text (escaped by `dumps` via surrogate
pairs). -/
theorem config_roundtrip_amended_witness :
    (allPrim [("source_lang", Json.str "ja"), ("size", Json.flt (PyFloat.finite "1.5")),
        ("scale", Json.flt (PyFloat.finite "-2e-10")),
        ("big", Json.flt (PyFloat.finite "1e+20")), ("limit", Json.flt PyFloat.inf),
        ("retries", Json.num (-3)), ("verbose", Json.bool true),
        ("note", Json.str "日本語 \"ok\"\x0a😀"), ("device", Json.null)] = true
      ∧ allPrimWf [("source_lang", Json.str "ja"), ("size", Json.flt (PyFloat.finite "1.5")),
        ("scale", Json.flt (PyFloat.finite "-2e-10")),
        ("big", Json.flt (PyFloat.finite "1e+20")), ("limit", Json.flt PyFloat.inf),
        ("retries", Json.num (-3)), ("verbose", Json.bool true),
        ("note", Json.str "日本語 \"ok\"\x0a😀"), ("device", Json.null)] = true
      ∧ noNaNFields [("source_lang", Json.str "ja"), ("size", Json.flt (PyFloat.finite "1.5")),
        ("scale", Json.flt (PyFloat.finite "-2e-10")),
        ("big", Json.flt (PyFloat.finite "1e+20")), ("limit", Json.flt PyFloat.inf),
        ("retries", Json.num (-3)), ("verbose", Json.bool true),
        ("note", Json.str "日本語 \"ok\"\x0a😀"), ("device", Json.null)] = true)
    ∧ parseJson (dumps (Json.obj [("source_lang", Json.str "ja"),
        ("size", Json.flt (PyFloat.finite "1.5")),
        ("scale", Json.flt (PyFloat.finite "-2e-10")),
        ("big", Json.flt (PyFloat.finite "1e+20")), ("limit", Json.flt PyFloat.inf),
        ("retries", Json.num (-3)), ("verbose", Json.bool true),
        ("note", Json.str "日本語 \"ok\"\x0a😀"), ("device", Json.null)])) =
      some (Json.obj [("source_lang", Json.str "ja"),
        ("size", Json.flt (PyFloat.finite "1.5")),
        ("scale", Json.flt (PyFloat.finite "-2e-10")),
        ("big", Json.flt (PyFloat.finite "1e+20")), ("limit", Json.flt PyFloat.inf),
        ("retries", Json.num (-3)), ("verbose", Json.bool true),
        ("note", Json.str "日本語 \"ok\"\x0a😀"), ("device", Json.null)]) :=
  ⟨⟨rfl, rfl, rfl⟩,
    (config_roundtrip_amended [("source_lang", Json.str "ja"),
      ("size", Json.flt (PyFloat.finite "1.5")),
      ("scale", Json.flt (PyFloat.finite "-2e-10")),
      ("big", Json.flt (PyFloat.finite "1e+20")), ("limit", Json.flt PyFloat.inf),
      ("retries", Json.num (-3)), ("verbose", Json.bool true),
      ("note", Json.str "日本語 \"ok\"\x0a😀"), ("device", Json.null)] rfl rfl rfl).1⟩
